import Mathlib

/-!
Verification development for the core of an options trading engine:
position and P&L management (`src/core/oms/position_manager.py`),
order routing (`src/core/oms/order_manager.py`), VWAP tracking and
tick ingestion (`src/core/feed.py`), candle resampling
(`src/core/candles.py`), and the weighted-strength and signal engine
(`src/core/strategy.py`).  Python floats are modelled with exact
rational arithmetic (`ℚ`), integers with `ℤ`/`ℕ`, dictionaries with
association lists or `Option`-valued functions.
-/

namespace OptionsQuant

/-- Order side, the `side` string argument of `PositionManager.on_fill`
(`'BUY'` or `'SELL'`). -/
inductive Side where
  | BUY
  | SELL
  deriving DecidableEq, Repr

/-- Signed fill quantity: `fill_qty = quantity if side == 'BUY' else -quantity`
(position_manager.py line 43). -/
def signedQty (side : Side) (quantity : ℕ) : ℤ :=
  match side with
  | .BUY => (quantity : ℤ)
  | .SELL => -(quantity : ℤ)

/-- One entry of `PositionManager.positions`, the per-`(symbol, product)` dict
`{"net_qty", "avg_price", "realized_pnl", "unrealized_pnl"}` together with the
trailing-stop keys `tsl_active`, `hwm`, `tsl_trigger`, `tsl_breached` that
`_manage_tsl` adds lazily (an absent key read through `.get` is falsy, which we
model as the `false`/`0` defaults of `Pos.init`).  The cosmetic `entry_time`
string is not modelled. -/
structure Pos where
  net_qty : ℤ
  avg_price : ℚ
  realized_pnl : ℚ
  unrealized_pnl : ℚ
  tsl_active : Bool
  hwm : ℚ
  tsl_trigger : ℚ
  tsl_breached : Bool
  deriving DecidableEq, Repr

/-- Freshly created position entry
`{"net_qty": 0, "avg_price": 0.0, "realized_pnl": 0.0, "unrealized_pnl": 0.0}`
(position_manager.py line 40). -/
def Pos.init : Pos :=
  { net_qty := 0, avg_price := 0, realized_pnl := 0, unrealized_pnl := 0,
    tsl_active := false, hwm := 0, tsl_trigger := 0, tsl_breached := false }

/-- `PositionManager.on_fill` restricted to a single `(symbol, product)` key
(position_manager.py lines 36-73): flat open, same-direction blend, or
close/reverse with realized P&L on `closing_qty = abs(fill_qty)`.  The
manager-level `self.realized_pnl` accumulates the same per-fill profit as the
per-key `realized_pnl` modelled here; persistence and logging are I/O. -/
def on_fill (pos : Pos) (quantity : ℕ) (price : ℚ) (side : Side) : Pos :=
  let fill_qty := signedQty side quantity
  if pos.net_qty = 0 then
    { pos with avg_price := price, net_qty := fill_qty }
  else if (0 < pos.net_qty ∧ 0 < fill_qty) ∨ (pos.net_qty < 0 ∧ fill_qty < 0) then
    let total_val := (pos.net_qty : ℚ) * pos.avg_price + (fill_qty : ℚ) * price
    let new_net := pos.net_qty + fill_qty
    { pos with net_qty := new_net, avg_price := total_val / (new_net : ℚ) }
  else
    let closing_qty : ℚ := ((|fill_qty| : ℤ) : ℚ)
    let profit :=
      if 0 < pos.net_qty then (price - pos.avg_price) * closing_qty
      else (pos.avg_price - price) * closing_qty
    let new_net := pos.net_qty + fill_qty
    { pos with
        realized_pnl := pos.realized_pnl + profit,
        net_qty := new_net,
        avg_price := if new_net = 0 then 0 else pos.avg_price }

/-- One fill event routed to `PositionManager.on_fill` for a fixed
`(symbol, product)` key. -/
structure Fill where
  quantity : ℕ
  price : ℚ
  side : Side
  deriving DecidableEq, Repr

/-- Apply `on_fill` for one `Fill` record. -/
def onFillF (pos : Pos) (f : Fill) : Pos :=
  on_fill pos f.quantity f.price f.side

/-- Apply a sequence of fills to one position key, in order. -/
def applyFills (pos : Pos) (fills : List Fill) : Pos :=
  fills.foldl onFillF pos

/-- Total quantity of a list of fills. -/
def qtySum (fills : List Fill) : ℕ :=
  (fills.map Fill.quantity).sum

/-- Total quantity-weighted price of a list of fills. -/
def pvSum (fills : List Fill) : ℚ :=
  (fills.map (fun f => (f.quantity : ℚ) * f.price)).sum

/-- Per-fill realized-P&L deltas along a fill sequence: for each fill, the
increase of `realized_pnl` produced by that call to `on_fill`. -/
def realizedDeltas (pos : Pos) : List Fill → List ℚ
  | [] => []
  | f :: rest =>
      ((onFillF pos f).realized_pnl - pos.realized_pnl) :: realizedDeltas (onFillF pos f) rest

/-- Trailing-stop configuration `TSL_PROFIT_HURDLE` / `TSL_TRAIL_PERCENT`
(config.py lines 36-37, defaults 5.0 and 5.0). -/
structure RiskParams where
  tsl_profit_hurdle : ℚ
  tsl_trail_percent : ℚ
  deriving Repr

/-- Default trailing-stop configuration from config.py. -/
def RiskParams.default : RiskParams :=
  { tsl_profit_hurdle := 5, tsl_trail_percent := 5 }

/-- `PositionManager._manage_tsl` (position_manager.py lines 100-140): arm at
the profit hurdle, then trail the high-water-mark and set the sticky
`tsl_breached` flag on a pull-back through the trigger. -/
def manage_tsl (cfg : RiskParams) (pos : Pos) (ltp : ℚ) : Pos :=
  if pos.net_qty = 0 then pos
  else
    let side : ℚ := if 0 < pos.net_qty then 1 else -1
    let profit_pct := side * (ltp - pos.avg_price) / pos.avg_price * 100
    if pos.tsl_active = false then
      if cfg.tsl_profit_hurdle ≤ profit_pct then
        { pos with tsl_active := true, hwm := ltp,
                   tsl_trigger := ltp * (1 - cfg.tsl_trail_percent / 100 * side) }
      else pos
    else
      if 0 < pos.net_qty then
        if pos.hwm < ltp then
          { pos with hwm := ltp, tsl_trigger := ltp * (1 - cfg.tsl_trail_percent / 100) }
        else if ltp < pos.tsl_trigger then
          { pos with tsl_breached := true }
        else pos
      else
        if ltp < pos.hwm then
          { pos with hwm := ltp, tsl_trigger := ltp * (1 + cfg.tsl_trail_percent / 100) }
        else if pos.tsl_trigger < ltp then
          { pos with tsl_breached := true }
        else pos

/-- `PositionManager.update_pnl` restricted to a single position
(position_manager.py lines 75-98): recompute unrealized P&L from the price
snapshot (falling back to the average price when the symbol is absent), then
advance the trailing-stop sub-state. -/
def update_pnl_pos (cfg : RiskParams) (pos : Pos) (ltpOpt : Option ℚ) : Pos :=
  if pos.net_qty = 0 then { pos with unrealized_pnl := 0 }
  else
    let ltp := ltpOpt.getD pos.avg_price
    let pos1 :=
      if 0 < pos.net_qty then
        { pos with unrealized_pnl := (ltp - pos.avg_price) * (pos.net_qty : ℚ) }
      else
        { pos with unrealized_pnl := (pos.avg_price - ltp) * ((|pos.net_qty| : ℤ) : ℚ) }
    manage_tsl cfg pos1 ltp

/-- `PositionManager.check_tsl_breach` for one key (position_manager.py lines
142-147): true when the entry exists and its `tsl_breached` key is truthy. -/
def check_tsl_breach (pos : Pos) : Bool :=
  pos.tsl_breached

/-- Trading-mode flags `PAPER_TRADING_MODE` / `SIMULATION_MODE` read by
`OrderManager.place_order` (order_manager.py line 34). -/
structure TradeModeConfig where
  paper_trading_mode : Bool
  simulation_mode : Bool
  deriving Repr

/-- `OrderManager.place_order` (order_manager.py lines 24-101) as it acts on
the `PositionManager` state of the traded key.  In paper/simulation mode the
code builds a synthetic `SIM_...` identifier, replaces a non-positive `price`
by the hardcoded fallback `1.0`, applies exactly one immediate fill through
`position_mgr.on_fill`, and returns the synthetic identifier; we return
`some fill_price` for that path (the identifier itself is a timestamp/random
string).  The live path calls the broker API and leaves the
`PositionManager` untouched (`none`).  The separate `PaperTradingEngine`
ledger is outside the `PositionManager` state modelled here. -/
def place_order (cfg : TradeModeConfig) (pos : Pos) (quantity : ℕ) (price : ℚ)
    (side : Side) : Pos × Option ℚ :=
  if cfg.paper_trading_mode = true ∨ cfg.simulation_mode = true then
    let fill_price := if price ≤ 0 then 1 else price
    (on_fill pos quantity fill_price side, some fill_price)
  else
    (pos, none)

/-- Per-instrument entry of `TickEngine.vwap_map`
(`{'cum_vol', 'cum_pv', 'last_vol'}`, feed.py lines 58 and 250-263). -/
structure VwapState where
  cum_vol : ℕ
  cum_pv : ℚ
  last_vol : ℕ
  deriving DecidableEq, Repr

/-- Entry freshly inserted by `on_tick` for a never-seen symbol
(`{'cum_vol': 0, 'cum_pv': 0}` with `last_vol` read through `.get(..., 0)`). -/
def VwapState.init : VwapState :=
  { cum_vol := 0, cum_pv := 0, last_vol := 0 }

/-- VWAP accumulation step of `TickEngine.on_tick` (feed.py lines 254-263):
when the tick's cumulative volume exceeds the last-seen baseline, add the
delta to `cum_vol`, `price × delta` to `cum_pv`, and advance the baseline;
otherwise leave the whole entry untouched. -/
def vwapUpdate (s : VwapState) (price : ℚ) (current_vol : ℕ) : VwapState :=
  if 0 < current_vol then
    if s.last_vol < current_vol then
      { cum_vol := s.cum_vol + (current_vol - s.last_vol),
        cum_pv := s.cum_pv + price * ((current_vol : ℚ) - (s.last_vol : ℚ)),
        last_vol := current_vol }
    else s
  else s

/-- VWAP placed into the outgoing dashboard payload (feed.py lines 287-290),
computed from the already-updated `vwap_map` entry:
`vwap = price; if current_vol > 0 or cum_vol > 0: vwap = cum_pv / cum_vol`. -/
def payloadVwap (s : VwapState) (price : ℚ) (current_vol : ℕ) : ℚ :=
  if 0 < current_vol ∨ 0 < s.cum_vol then s.cum_pv / (s.cum_vol : ℚ) else price

/-- Reachable-state invariant of a `vwap_map` entry: a zero accumulated volume
forces a zero baseline.  It holds for `VwapState.init` and for the entries
written by `_seed_history` (which sets `last_vol` and `cum_vol` to the same
seeded total), and is preserved by `vwapUpdate`. -/
def VwapInv (s : VwapState) : Prop :=
  s.cum_vol = 0 → s.last_vol = 0

/-- One OHLCV bar, the `Candle` dataclass of candles.py (field `open` is a Lean
keyword and is rendered `open_`).  Timestamps are seconds as a natural
number; `datetime` ordering coincides with numeric ordering. -/
structure Candle where
  timestamp : ℕ
  open_ : ℚ
  high : ℚ
  low : ℚ
  close : ℚ
  volume : ℕ
  complete : Bool
  deriving DecidableEq, Repr

/-- Bucket start of a tick for `CandleResampler` (candles.py lines 32-33):
`minute_floor = (timestamp.minute // interval) * interval` and
`timestamp.replace(minute=minute_floor, second=0, microsecond=0)`, on
timestamps measured in seconds. -/
def bucketStart (interval : ℕ) (ts : ℕ) : ℕ :=
  ts / 3600 * 3600 + ts % 3600 / 60 / interval * interval * 60

/-- State of one `CandleResampler` (candles.py lines 19-23). -/
structure ResamplerState where
  interval : ℕ
  current_candle : Option Candle
  candles : List Candle
  deriving DecidableEq, Repr

/-- Fresh resampler for a given interval (`interval_minutes`). -/
def ResamplerState.init (interval : ℕ) : ResamplerState :=
  { interval := interval, current_candle := none, candles := [] }

/-- `CandleResampler.process_tick` (candles.py lines 25-75): freeze and return
the current candle when the tick's bucket start is strictly later, seed a
candle when none exists, otherwise update high/low/close/volume in place. -/
def process_tick (st : ResamplerState) (price : ℚ) (volume : ℕ) (ts : ℕ) :
    ResamplerState × Option Candle :=
  let bs := bucketStart st.interval ts
  let seeded : Candle :=
    { timestamp := bs, open_ := price, high := price, low := price,
      close := price, volume := volume, complete := false }
  match st.current_candle with
  | some c =>
      if c.timestamp < bs then
        let completed := { c with complete := true }
        ({ st with
             candles := st.candles ++ [completed],
             current_candle := some seeded },
         some completed)
      else
        let updated : Candle :=
          { c with high := max c.high price, low := min c.low price,
                   close := price, volume := c.volume + volume }
        ({ st with current_candle := some updated }, none)
  | none =>
      ({ st with current_candle := some seeded }, none)

/-- One tick as seen by a `CandleResampler`. -/
structure RTick where
  price : ℚ
  volume : ℕ
  ts : ℕ
  deriving DecidableEq, Repr

/-- Run a resampler over a tick sequence, collecting the completed candles it
returns, in order. -/
def runResampler (st : ResamplerState) : List RTick → ResamplerState × List Candle
  | [] => (st, [])
  | tk :: rest =>
      let step := process_tick st tk.price tk.volume tk.ts
      let next := runResampler step.1 rest
      (next.1, step.2.toList ++ next.2)

/-- update of an `Option`-valued map modelling a Python dict assignment
`d[k] = v`. -/
def dictInsert (f : String → Option ℚ) (k : String) (v : ℚ) : String → Option ℚ :=
  fun s => if s = k then some v else f s

/-- State of `WeightageCalculator` (strategy.py lines 53-68): the configured
weight table (a dict, modelled as an association list without duplicate keys
to keep its iteration order) and the price/volume dicts.  The `use_volume`
branch of `calculate_weighted_strength` is a `pass` placeholder in the source
and has no effect, so it is not modelled. -/
structure WState where
  weights : List (String × ℚ)
  open_prices : String → Option ℚ
  current_prices : String → Option ℚ
  current_volumes : String → Option ℚ
  initial_volumes : String → Option ℚ

/-- Fresh calculator for a given weight table (all price dicts empty). -/
def WState.init (weights : List (String × ℚ)) : WState :=
  { weights := weights, open_prices := fun _ => none, current_prices := fun _ => none,
    current_volumes := fun _ => none, initial_volumes := fun _ => none }

/-- `WeightageCalculator.update_data` (strategy.py lines 76-86): ignore
symbols outside the weight table, record current price/volume, and set the
open-price reference when `is_open` is asserted or none exists yet. -/
def update_data (st : WState) (symbol : String) (price volume : ℚ)
    (is_open : Bool) : WState :=
  if (st.weights.lookup symbol).isSome = false then st
  else
    let st1 := { st with
      current_prices := dictInsert st.current_prices symbol price,
      current_volumes := dictInsert st.current_volumes symbol volume }
    if is_open = true ∨ st.open_prices symbol = none then
      { st1 with
          open_prices := dictInsert st1.open_prices symbol price,
          initial_volumes := dictInsert st1.initial_volumes symbol volume }
    else st1

/-- `WeightageCalculator.set_open_price` (strategy.py lines 70-74), used by
`TickEngine._seed_history`. -/
def set_open_price (st : WState) (symbol : String) (price : ℚ) : WState :=
  if (st.weights.lookup symbol).isSome then
    { st with open_prices := dictInsert st.open_prices symbol price }
  else st

/-- Loop body of `WeightageCalculator.calculate_weighted_strength`
(strategy.py lines 96-116): skip members missing an open or current price or
whose open price is exactly zero, otherwise add
`(current − open) / open × 100 × weight`. -/
def strengthContrib (st : WState) (acc : ℚ) (sw : String × ℚ) : ℚ :=
  match st.open_prices sw.1, st.current_prices sw.1 with
  | some op, some cp => if op = 0 then acc else acc + (cp - op) / op * 100 * sw.2
  | _, _ => acc

/-- `WeightageCalculator.calculate_weighted_strength` (strategy.py lines
88-118), iterating over the weight table in order. -/
def calculate_weighted_strength (st : WState) : ℚ :=
  st.weights.foldl (strengthContrib st) 0

/-- Macro-trend classification strings produced by
`TechnicalIndicators.calculate_macro_trend`. -/
inductive MacroTrend where
  | BULLISH
  | BEARISH
  | NEUTRAL
  deriving DecidableEq, Repr

/-- `Strategy.position` values: Python `None`, `"CE"`, `"PE"`, `"STRADDLE"`
(`flat` models `None`). -/
inductive Stance where
  | flat
  | CE
  | PE
  | STRADDLE
  deriving DecidableEq, Repr

/-- Signal discriminator strings of the `Signal` dataclass. -/
inductive SignalType where
  | BUY_CE
  | BUY_PE
  | BUY_STRADDLE
  | EXIT
  deriving DecidableEq, Repr

/-- The `Signal` dataclass (strategy.py lines 45-51).  The constant subject
symbol `"BANKNIFTY"` and the human-readable `reason` string are not
modelled. -/
structure Signal where
  type : SignalType
  price : ℚ
  timestamp : ℚ
  deriving DecidableEq, Repr

/-- Stance recorded by `Strategy.on_tick` simultaneously with emitting a
signal of each type. -/
def stanceAfter : SignalType → Stance
  | .BUY_CE => .CE
  | .BUY_PE => .PE
  | .BUY_STRADDLE => .STRADDLE
  | .EXIT => .flat

/-- Configuration of `Strategy` (strategy.py lines 172-184) together with the
module-level flags `config.SIMULATION_MODE` and `config.ENABLE_STRADDLES`
that `on_tick` reads (they are set at runtime by the launchers). -/
structure StratConfig where
  threshold : ℚ
  min_hold_time : ℚ
  confirmation_count : ℕ
  simulation_mode : Bool
  enable_straddles : Bool
  deriving Repr

/-- Mutable state of `Strategy` (strategy.py lines 180-189): open stance,
last signal time (initially `0`), score buffer and `(timestamp, price)`
momentum history. -/
structure StratState where
  position : Stance
  last_signal_time : ℚ
  score_buffer : List ℚ
  price_history : List (ℚ × ℚ)
  deriving DecidableEq, Repr

/-- State of a freshly constructed `Strategy`. -/
def StratState.init : StratState :=
  { position := .flat, last_signal_time := 0, score_buffer := [], price_history := [] }

/-- Momentum tier table of `Strategy._calculate_momentum` (strategy.py lines
215-221). -/
def momentumTier (change_points : ℚ) : ℚ :=
  if 60 ≤ change_points then 3/2
  else if 30 ≤ change_points then 1/2
  else if change_points ≤ -60 then -(3/2)
  else if change_points ≤ -30 then -(1/2)
  else 0

/-- `Strategy._calculate_momentum` (strategy.py lines 191-221): append the
current sample, evict entries older than 600 s from the front, and score the
price change against the most recent entry at least 120 s old (falling back
to the oldest entry).  Returns the new history and the momentum score. -/
def calculate_momentum (history : List (ℚ × ℚ)) (current_price current_time : ℚ) :
    List (ℚ × ℚ) × ℚ :=
  let h := (history ++ [(current_time, current_price)]).dropWhile
      (fun e => decide (600 < current_time - e.1))
  if h.length < 2 then (h, 0)
  else
    let lookback_time := current_time - 120
    let old_price :=
      match h.reverse.find? (fun e => decide (e.1 ≤ lookback_time)) with
      | some e => e.2
      | none => h.headI.2
    (h, momentumTier (current_price - old_price))

/-- Factor A of `Strategy.on_tick` (strategy.py lines 236-239): intraday
trend of price against the VWAP reference, `0` when no reference. -/
def factorTrend (price vwap : ℚ) : ℚ :=
  if 0 < vwap then
    if vwap < price then 1 else if price < vwap then -1 else 0
  else 0

/-- Factor B of `Strategy.on_tick` (strategy.py lines 241-243): macro
context. -/
def factorMacro : MacroTrend → ℚ
  | .BULLISH => 1
  | .BEARISH => -1
  | .NEUTRAL => 0

/-- Factor C of `Strategy.on_tick` (strategy.py lines 245-249): tiered
constituent strength. -/
def factorStrength (strength : ℚ) : ℚ :=
  if 20 < strength then 3/2
  else if 10 < strength then 1/2
  else if strength < -20 then -(3/2)
  else if strength < -10 then -(1/2)
  else 0

/-- Simulation-mode score boost (strategy.py lines 254-259), applied only
when `config.SIMULATION_MODE` is set and no position is open. -/
def simBoost (score : ℚ) : ℚ :=
  if 1/2 < score then score + 3/2
  else if score < -(1/2) then score - 3/2
  else score

/-- Sum of the four factor scores of `Strategy.on_tick` (strategy.py lines
233-252): intraday trend, macro context, tiered constituent strength, and
momentum on the current history. -/
def rawFactorScore (wc : WState) (st : StratState)
    (price timestamp vwap : ℚ) (macro_trend : MacroTrend) : ℚ :=
  factorTrend price vwap + factorMacro macro_trend
    + factorStrength (calculate_weighted_strength wc)
    + (calculate_momentum st.price_history price timestamp).2

/-- Score pushed into the confirmation buffer (strategy.py lines 233-263):
the four-factor sum, boosted in simulation mode while no position is open. -/
def pushedScore (cfg : StratConfig) (wc : WState) (st : StratState)
    (price timestamp vwap : ℚ) (macro_trend : MacroTrend) : ℚ :=
  if cfg.simulation_mode = true ∧ st.position = Stance.flat then
    simBoost (rawFactorScore wc st price timestamp vwap macro_trend)
  else rawFactorScore wc st price timestamp vwap macro_trend

/-- Confirmation-buffer window slide (strategy.py lines 263-265): after the
push, drop the oldest score when the buffer exceeds the confirmation
count. -/
def slideWindow (count : ℕ) (buf : List ℚ) : List ℚ :=
  if count < buf.length then buf.tail else buf

/-- `Strategy.on_tick` (strategy.py lines 223-324).  The attached
`WeightageCalculator` is shared with the `TickEngine`, so it is passed in as
`wc` and only read (`calculate_weighted_strength`).  Returns the updated
strategy state and the optional emitted signal. -/
def Strategy.on_tick (cfg : StratConfig) (wc : WState) (st : StratState)
    (price timestamp vwap : ℚ) (macro_trend : MacroTrend) :
    StratState × Option Signal :=
  let mom_score := (calculate_momentum st.price_history price timestamp).2
  let buf := slideWindow cfg.confirmation_count
      (st.score_buffer ++ [pushedScore cfg wc st price timestamp vwap macro_trend])
  let stBase : StratState := { st with
    price_history := (calculate_momentum st.price_history price timestamp).1,
    score_buffer := buf }
  if buf.length < cfg.confirmation_count then (stBase, none)
  else
    let avg_score := buf.sum / (buf.length : ℚ)
    if timestamp - st.last_signal_time < cfg.min_hold_time ∧ 0 < st.last_signal_time then
      (stBase, none)
    else
      match st.position with
      | .flat =>
          let conviction := avg_score - mom_score
          if cfg.threshold ≤ avg_score then
            ({ stBase with position := .CE, last_signal_time := timestamp },
             some { type := .BUY_CE, price := price, timestamp := timestamp })
          else if avg_score ≤ -cfg.threshold then
            ({ stBase with position := .PE, last_signal_time := timestamp },
             some { type := .BUY_PE, price := price, timestamp := timestamp })
          else if cfg.enable_straddles = true ∧ |conviction| < 1 ∧ 3/2 ≤ |mom_score| then
            ({ stBase with position := .STRADDLE, last_signal_time := timestamp },
             some { type := .BUY_STRADDLE, price := price, timestamp := timestamp })
          else (stBase, none)
      | .CE =>
          if avg_score < 1/2 then
            ({ stBase with position := .flat, last_signal_time := timestamp },
             some { type := .EXIT, price := price, timestamp := timestamp })
          else (stBase, none)
      | .PE =>
          if -(1/2) < avg_score then
            ({ stBase with position := .flat, last_signal_time := timestamp },
             some { type := .EXIT, price := price, timestamp := timestamp })
          else (stBase, none)
      | .STRADDLE =>
          if |mom_score| < 1/2 ∨ cfg.threshold < |avg_score| then
            ({ stBase with position := .flat, last_signal_time := timestamp },
             some { type := .EXIT, price := price, timestamp := timestamp })
          else (stBase, none)

/-- One invocation context of `Strategy.on_tick`: the shared calculator state
at that instant and the tick-derived arguments. -/
structure StratTick where
  wc : WState
  price : ℚ
  t : ℚ
  vwap : ℚ
  trend : MacroTrend

/-- Run the signal engine over a sequence of ticks, collecting emitted
signals in order. -/
def stratRun (cfg : StratConfig) (st : StratState) :
    List StratTick → StratState × List Signal
  | [] => (st, [])
  | tk :: rest =>
      let step := Strategy.on_tick cfg tk.wc st tk.price tk.t tk.vwap tk.trend
      let next := stratRun cfg step.1 rest
      (next.1, step.2.toList ++ next.2)

/-- Inbound websocket tick as read by `TickEngine.on_tick` (feed.py lines
232-248): optional token `tk`, last price `lp` (defaulting to `0` when the
field is absent), cumulative volume `v`, whether the day-open field `o` is
present, and the arrival instant (as seconds for the resamplers and as an
epoch rational for the strategy — both denote `datetime.now(IST)`). -/
structure Tick where
  tk : Option String
  lp : ℚ
  v : ℕ
  has_o : Bool
  ts : ℕ
  t_epoch : ℚ

/-- The per-tick mutable state of `TickEngine` that the tick pipeline feeds:
token resolution map, tracked-stock set, `vwap_map`, the shared
`WeightageCalculator`, both candle resamplers, the strategy state, and the
macro-trend cache (read-only here, default `NEUTRAL`).  Dashboard payload
publication, ATM-subscription bookkeeping, logging and persistence are I/O
side channels without influence on this state; order execution
(`execute_signal`) is driven exclusively by the signal returned to the
caller, which the model exposes as the second component. -/
structure EngineState where
  reverse_token_map : String → Option String
  tracked_stocks : String → Bool
  vwap_map : String → Option VwapState
  weightage : WState
  resampler_3m : ResamplerState
  resampler_5m : ResamplerState
  strategy : StratState
  mTrend : String → MacroTrend

/-- `TickEngine.on_tick` (feed.py lines 232-398): drop ticks without a
resolvable token or with a zero price; update the VWAP entry; compute the
payload VWAP; update the weightage calculator for tracked non-index symbols
(asserting `is_open` whenever the tick carries an `o` field); and for
`BANKNIFTY` run both resamplers and the strategy, falling back to a plain
`update_data` call when no signal was produced. -/
def engineOnTick (cfg : StratConfig) (st : EngineState) (tick : Tick) :
    EngineState × Option Signal :=
  match tick.tk with
  | none => (st, none)
  | some token =>
    match st.reverse_token_map token with
    | none => (st, none)
    | some symbol =>
      let price := tick.lp
      if price = 0 then (st, none)
      else
        let vst0 := (st.vwap_map symbol).getD VwapState.init
        let vst := vwapUpdate vst0 price tick.v
        let st1 := { st with
          vwap_map := fun s => if s = symbol then some vst else st.vwap_map s }
        let vwap := payloadVwap vst price tick.v
        let st2 :=
          if symbol ≠ "BANKNIFTY" ∧ st1.tracked_stocks symbol = true then
            { st1 with weightage :=
                update_data st1.weightage symbol price (tick.v : ℚ) tick.has_o }
          else st1
        if symbol = "BANKNIFTY" then
          let r3 := process_tick st2.resampler_3m price tick.v tick.ts
          let r5 := process_tick st2.resampler_5m price tick.v tick.ts
          let srun := Strategy.on_tick cfg st2.weightage st2.strategy price
              tick.t_epoch vwap (st2.mTrend "BANKNIFTY")
          let st3 := { st2 with
            resampler_3m := r3.1, resampler_5m := r5.1, strategy := srun.1 }
          match srun.2 with
          | some s => (st3, some s)
          | none =>
              ({ st3 with weightage :=
                   update_data st3.weightage symbol price (tick.v : ℚ) false },
               none)
        else (st2, none)

/-- Basket member with both an open and a current price recorded and an open
price other than exactly zero — the members `calculate_weighted_strength`
does not skip. -/
def memberActive (st : WState) (sw : String × ℚ) : Bool :=
  (st.open_prices sw.1).isSome && (st.current_prices sw.1).isSome
    && !(decide ((st.open_prices sw.1).getD 0 = 0))

/-- Contribution `weight × (current − open) / open × 100` of an active basket
member. -/
def memberTerm (st : WState) (sw : String × ℚ) : ℚ :=
  ((st.current_prices sw.1).getD 0 - (st.open_prices sw.1).getD 0)
    / (st.open_prices sw.1).getD 0 * 100 * sw.2

/-- Two-member example basket from the spec: A(weight 50, open 1000, now
1010) and B(weight 50, open 1000, now 1000). -/
def wExample : WState :=
  { weights := [("A", 50), ("B", 50)],
    open_prices := fun s => if s = "A" then some 1000 else if s = "B" then some 1000 else none,
    current_prices := fun s => if s = "A" then some 1010 else if s = "B" then some 1000 else none,
    current_volumes := fun _ => none,
    initial_volumes := fun _ => none }

/-- Strategy configuration with the config.py defaults
(`MIN_SIGNAL_STRENGTH` 5.5, `MIN_SIGNAL_HOLD_TIME` 60,
`MIN_SIGNAL_CONFIRMATION` 5) and both runtime flags off. -/
def cfgDefault : StratConfig :=
  { threshold := 11/2, min_hold_time := 60, confirmation_count := 5,
    simulation_mode := false, enable_straddles := false }

/-- Concrete fresh engine state for evaluating the tick-ingestion path:
token `1333` resolves to the tracked constituent `HDFCBANK`, carrying
weight 28 in the basket; all derived state is empty. -/
def engineExample : EngineState :=
  { reverse_token_map := fun t => if t = "1333" then some "HDFCBANK" else none,
    tracked_stocks := fun s => s == "HDFCBANK",
    vwap_map := fun _ => none,
    weightage := WState.init [("HDFCBANK", 28)],
    resampler_3m := ResamplerState.init 3,
    resampler_5m := ResamplerState.init 5,
    strategy := StratState.init,
    mTrend := fun _ => MacroTrend.NEUTRAL }

/-- Default strategy configuration with `SIMULATION_MODE` switched on, as
the simulation launcher does at startup. -/
def cfgSim : StratConfig :=
  { cfgDefault with simulation_mode := true }

/-! Helper lemmas for the position manager. -/

/-- Opening fill on a flat key (first branch of `on_fill`). -/
lemma on_fill_flat (pos : Pos) (q : ℕ) (p : ℚ) (s : Side) (h : pos.net_qty = 0) :
    on_fill pos q p s = { pos with avg_price := p, net_qty := signedQty s q } := by
  simp [on_fill, h]

/-- Same-direction fill (second branch of `on_fill`). -/
lemma on_fill_same_dir (pos : Pos) (q : ℕ) (p : ℚ) (s : Side) (hq : 0 < q)
    (h : (0 < pos.net_qty ∧ s = Side.BUY) ∨ (pos.net_qty < 0 ∧ s = Side.SELL)) :
    on_fill pos q p s =
      { pos with
          net_qty := pos.net_qty + signedQty s q,
          avg_price := ((pos.net_qty : ℚ) * pos.avg_price + ((signedQty s q : ℤ) : ℚ) * p)
              / (((pos.net_qty + signedQty s q : ℤ)) : ℚ) } := by
  have hq' : (0 : ℤ) < (q : ℤ) := by exact_mod_cast hq
  rcases h with ⟨hn, hs⟩ | ⟨hn, hs⟩ <;> subst hs <;>
    · rw [on_fill]
      rw [if_neg (by omega), if_pos (by simp [signedQty]; omega)]

/-- Reducing or reversing fill (third branch of `on_fill`). -/
lemma on_fill_close (pos : Pos) (q : ℕ) (p : ℚ) (s : Side) (hq : 0 < q)
    (h : (0 < pos.net_qty ∧ s = Side.SELL) ∨ (pos.net_qty < 0 ∧ s = Side.BUY)) :
    on_fill pos q p s =
      { pos with
          realized_pnl := pos.realized_pnl +
            (if 0 < pos.net_qty then (p - pos.avg_price) * q else (pos.avg_price - p) * q),
          net_qty := pos.net_qty + signedQty s q,
          avg_price := if pos.net_qty + signedQty s q = 0 then 0 else pos.avg_price } := by
  have hq' : (0 : ℤ) < (q : ℤ) := by exact_mod_cast hq
  have habs : ∀ z : ℤ, z = (q : ℤ) ∨ z = -(q : ℤ) → ((|z| : ℤ) : ℚ) = (q : ℚ) := by
    rintro z (rfl | rfl) <;> simp [abs_of_nonneg, abs_of_nonpos, hq'.le]
  rcases h with ⟨hn, hs⟩ | ⟨hn, hs⟩ <;> subst hs <;>
    · rw [on_fill]
      rw [if_neg (by omega), if_neg (by simp [signedQty]; omega)]
      simp only [signedQty]
      rw [habs _ (by simp)]

/-- After a fill of positive quantity, a zero net quantity forces a zero
average price. -/
lemma on_fill_net_zero_avg (pos : Pos) (q : ℕ) (p : ℚ) (s : Side) (hq : 0 < q)
    (h : (on_fill pos q p s).net_qty = 0) : (on_fill pos q p s).avg_price = 0 := by
  have hq' : (0 : ℤ) < (q : ℤ) := by exact_mod_cast hq
  have hsq : signedQty s q ≠ 0 := by cases s <;> simp [signedQty] <;> omega
  rw [on_fill] at h ⊢
  split_ifs at h ⊢ with h1 h2 h3 <;> simp_all

/-- The zero-net-implies-zero-average invariant propagates through any
sequence of positive-quantity fills. -/
lemma applyFills_net_zero_avg :
    ∀ (fills : List Fill) (pos : Pos), (∀ g ∈ fills, 0 < g.quantity) →
      (pos.net_qty = 0 → pos.avg_price = 0) →
      ((applyFills pos fills).net_qty = 0 → (applyFills pos fills).avg_price = 0)
  | [], pos, _, hpos => by simpa [applyFills] using hpos
  | f :: rest, pos, hall, hpos => by
      have hf : 0 < f.quantity := hall f (by simp)
      have hrest : ∀ g ∈ rest, 0 < g.quantity := fun g hg => hall g (by simp [hg])
      have hstep : (onFillF pos f).net_qty = 0 → (onFillF pos f).avg_price = 0 :=
        on_fill_net_zero_avg pos f.quantity f.price f.side hf
      simpa [applyFills] using
        applyFills_net_zero_avg rest (onFillF pos f) hrest hstep

/-- Cumulative realized P&L telescopes into the per-fill deltas. -/
lemma realized_telescope :
    ∀ (fills : List Fill) (pos : Pos),
      (applyFills pos fills).realized_pnl
        = pos.realized_pnl + (realizedDeltas pos fills).sum
  | [], pos => by simp [applyFills, realizedDeltas]
  | f :: rest, pos => by
      have ih := realized_telescope rest (onFillF pos f)
      simp only [applyFills, List.foldl_cons] at ih ⊢
      rw [ih, realizedDeltas, List.sum_cons]
      ring

/-- Signed quantities add within one direction. -/
lemma signedQty_add (s : Side) (a b : ℕ) :
    signedQty s (a + b) = signedQty s a + signedQty s b := by
  cases s <;> simp [signedQty] <;> push_cast <;> ring

/-- Invariant carried through a run of same-direction fills: starting from a
position of `n > 0` units (signed by `s`) at average price `W / n`, the run
ends with `n + Σqᵢ` units at average `(W + Σqᵢpᵢ) / (n + Σqᵢ)` and realizes
nothing. -/
lemma applyFills_same_dir (s : Side) :
    ∀ (fills : List Fill) (pos : Pos) (n : ℕ) (W : ℚ),
      0 < n → pos.net_qty = signedQty s n → pos.avg_price = W / (n : ℚ) →
      (∀ g ∈ fills, g.side = s ∧ 0 < g.quantity) →
      (applyFills pos fills).net_qty = signedQty s (n + qtySum fills)
        ∧ (applyFills pos fills).avg_price
            = (W + pvSum fills) / ((n + qtySum fills : ℕ) : ℚ)
        ∧ (applyFills pos fills).realized_pnl = pos.realized_pnl
  | [], pos, n, W, hn, hnet, havg, _ => by
      simp [applyFills, qtySum, pvSum, hnet, havg]
  | f :: rest, pos, n, W, hn, hnet, havg, hall => by
      obtain ⟨hside, hq⟩ := hall f (by simp)
      have hn0 : ((n : ℚ)) ≠ 0 := by exact_mod_cast hn.ne'
      have hdir : (0 < pos.net_qty ∧ s = Side.BUY) ∨ (pos.net_qty < 0 ∧ s = Side.SELL) := by
        cases s <;> simp [hnet, signedQty] <;> omega
      have hstep := on_fill_same_dir pos f.quantity f.price s hq hdir
      have hnet1 : (on_fill pos f.quantity f.price s).net_qty
          = signedQty s (n + f.quantity) := by
        rw [hstep, signedQty_add, hnet]
      have havg1 : (on_fill pos f.quantity f.price s).avg_price
          = (W + (f.quantity : ℚ) * f.price) / ((n + f.quantity : ℕ) : ℚ) := by
        rw [hstep]
        simp only [hnet, havg, ← signedQty_add]
        cases s <;> simp only [signedQty] <;> push_cast
        · rw [mul_comm ((n : ℚ)) (W / (n : ℚ)), div_mul_cancel₀ _ hn0]
        · rw [show -(n : ℚ) * (W / (n : ℚ)) + -(f.quantity : ℚ) * f.price
              = -(W / (n : ℚ) * (n : ℚ) + (f.quantity : ℚ) * f.price) by ring,
            show -((n : ℚ) + (f.quantity : ℚ)) = -(((n : ℚ) + (f.quantity : ℚ))) from rfl,
            neg_div_neg_eq, div_mul_cancel₀ _ hn0]
      have hreal1 : (on_fill pos f.quantity f.price s).realized_pnl = pos.realized_pnl := by
        rw [hstep]
      have hrest : ∀ g ∈ rest, g.side = s ∧ 0 < g.quantity :=
        fun g hg => hall g (by simp [hg])
      have hfq : f.side = s := hside
      have ih := applyFills_same_dir s rest (on_fill pos f.quantity f.price s)
        (n + f.quantity) (W + (f.quantity : ℚ) * f.price) (by omega) hnet1 havg1 hrest
      have happ : applyFills pos (f :: rest)
          = applyFills (on_fill pos f.quantity f.price s) rest := by
        simp [applyFills, onFillF, hfq]
      refine ⟨?_, ?_, ?_⟩
      · rw [happ, ih.1, qtySum]
        simp [qtySum]
        congr 1
        omega
      · rw [happ, ih.2.1, qtySum, pvSum]
        simp [qtySum, pvSum]
        ring
      · rw [happ, ih.2.2, hreal1]

/-- C1 (amended): lifecycle of one `(instrument, product)` position key under
`PositionManager.on_fill`.  (i) A fill on a flat key opens the position at
the fill price with the signed fill quantity.  (ii) A same-direction fill
recomputes `avg' = (net×avg + signed_qty×price) / (net+signed_qty)`.
(iii) From flat, a nonempty run of same-direction fills ends at the
quantity-weighted mean of all fill prices.  (iv) A reducing or reversing
fill realizes `(exit−avg)×|fill_qty|` for a long and `(avg−exit)×|fill_qty|`
for a short — the full absolute fill quantity, which equals the closed
portion only when the fill does not reverse the position — adds it to
cumulative realized P&L, and resets the average price to zero exactly when
the net quantity lands on zero.  (v) A fully round-tripped run of
positive-quantity fills from flat ends with average price `0` and cumulative
realized P&L equal to the sum of the per-fill realized deltas. -/
theorem C1_position_lifecycle :
    (∀ (pos : Pos) (q : ℕ) (p : ℚ) (s : Side), pos.net_qty = 0 →
        on_fill pos q p s = { pos with avg_price := p, net_qty := signedQty s q })
  ∧ (∀ (pos : Pos) (q : ℕ) (p : ℚ) (s : Side), 0 < q →
        (0 < pos.net_qty ∧ s = Side.BUY) ∨ (pos.net_qty < 0 ∧ s = Side.SELL) →
        on_fill pos q p s = { pos with
          net_qty := pos.net_qty + signedQty s q,
          avg_price := ((pos.net_qty : ℚ) * pos.avg_price + ((signedQty s q : ℤ) : ℚ) * p)
              / (((pos.net_qty + signedQty s q : ℤ)) : ℚ) })
  ∧ (∀ (s : Side) (fills : List Fill), fills ≠ [] →
        (∀ g ∈ fills, g.side = s ∧ 0 < g.quantity) →
        (applyFills Pos.init fills).net_qty = signedQty s (qtySum fills)
          ∧ (applyFills Pos.init fills).avg_price = pvSum fills / ((qtySum fills : ℕ) : ℚ))
  ∧ (∀ (pos : Pos) (q : ℕ) (p : ℚ) (s : Side), 0 < q →
        (0 < pos.net_qty ∧ s = Side.SELL) ∨ (pos.net_qty < 0 ∧ s = Side.BUY) →
        on_fill pos q p s = { pos with
          realized_pnl := pos.realized_pnl +
            (if 0 < pos.net_qty then (p - pos.avg_price) * q else (pos.avg_price - p) * q),
          net_qty := pos.net_qty + signedQty s q,
          avg_price := if pos.net_qty + signedQty s q = 0 then 0 else pos.avg_price })
  ∧ (∀ (fills : List Fill), (∀ g ∈ fills, 0 < g.quantity) →
        (applyFills Pos.init fills).net_qty = 0 →
        (applyFills Pos.init fills).avg_price = 0
          ∧ (applyFills Pos.init fills).realized_pnl = (realizedDeltas Pos.init fills).sum) := by
  refine ⟨on_fill_flat, fun pos q p s hq h => on_fill_same_dir pos q p s hq h, ?_,
    fun pos q p s hq h => on_fill_close pos q p s hq h, ?_⟩
  · rintro s (_ | ⟨f, rest⟩) hne hall
    · exact absurd rfl hne
    obtain ⟨hside, hq⟩ := hall f (by simp)
    have hq0 : ((f.quantity : ℚ)) ≠ 0 := by exact_mod_cast hq.ne'
    have hflat : onFillF Pos.init f
        = { Pos.init with avg_price := f.price, net_qty := signedQty s f.quantity } := by
      rw [onFillF, hside, on_fill_flat _ _ _ _ rfl]
    have haux := applyFills_same_dir s rest
      ({ Pos.init with avg_price := f.price, net_qty := signedQty s f.quantity })
      f.quantity ((f.quantity : ℚ) * f.price) hq rfl
      (by rw [mul_comm, mul_div_assoc, div_self hq0, mul_one])
      (fun g hg => hall g (by simp [hg]))
    have happ : applyFills Pos.init (f :: rest)
        = applyFills { Pos.init with avg_price := f.price, net_qty := signedQty s f.quantity }
            rest := by
      simp [applyFills, hflat]
    refine ⟨?_, ?_⟩
    · rw [happ, haux.1, qtySum]
      simp [qtySum]
    · rw [happ, haux.2.1, qtySum, pvSum]
      simp [qtySum, pvSum]
  · intro fills hall hnet
    refine ⟨applyFills_net_zero_avg fills Pos.init hall (fun _ => rfl) hnet, ?_⟩
    have := realized_telescope fills Pos.init
    simpa [Pos.init] using this

/-- C1 counterexample: a reversing fill realizes P&L on the whole fill
quantity, not only on the closed portion.  Buying 1 at 100 then selling 2 at
110 closes a portion of 1 unit, so the claimed realized delta is
`(110 − 100) × 1 = 10`, yet the code realizes `(110 − 100) × 2 = 20`. -/
theorem C1_reversal_counterexample :
    (applyFills Pos.init [⟨1, 100, Side.BUY⟩, ⟨2, 110, Side.SELL⟩]).realized_pnl = 20
      ∧ ((110 : ℚ) - 100) * 1 = 10 ∧ (20 : ℚ) ≠ 10 := by
  refine ⟨?_, by norm_num, by norm_num⟩
  norm_num [applyFills, onFillF, on_fill, signedQty, Pos.init]

/-- C1 witness: the amended lifecycle theorem applied to the spec's own
worked scenario (buy 10 at 100, buy 5 at 110, then sell 15 at 120). -/
theorem C1_position_lifecycle_witness :
    (applyFills Pos.init [⟨10, 100, Side.BUY⟩, ⟨5, 110, Side.BUY⟩]).avg_price
        = pvSum [⟨10, 100, Side.BUY⟩, ⟨5, 110, Side.BUY⟩]
          / ((qtySum [⟨10, 100, Side.BUY⟩, ⟨5, 110, Side.BUY⟩] : ℕ) : ℚ)
      ∧ (applyFills Pos.init
            [⟨10, 100, Side.BUY⟩, ⟨5, 110, Side.BUY⟩, ⟨15, 120, Side.SELL⟩]).avg_price = 0 := by
  constructor
  · exact (C1_position_lifecycle.2.2.1 Side.BUY
      [⟨10, 100, Side.BUY⟩, ⟨5, 110, Side.BUY⟩] (by simp) (by simp)).2
  · exact (C1_position_lifecycle.2.2.2.2
      [⟨10, 100, Side.BUY⟩, ⟨5, 110, Side.BUY⟩, ⟨15, 120, Side.SELL⟩]
      (by simp)
      (by norm_num [applyFills, onFillF, on_fill, signedQty, Pos.init])).1

/-- C3 (code-bug evidence): the trailing-stop sub-state survives a close and
reopen.  Open long 1 at 100; a mark at 106 arms the TSL (hurdle 5 %, high
water mark 106, trigger 100.7); a mark at 100 breaches it; selling 1 at 100
closes the position (net 0, average 0); buying 1 at 100 reopens it — and the
reopened position still carries `tsl_active = true` and `tsl_breached =
true`, so `check_tsl_breach` fires for a position that never armed, instead
of the fresh un-armed, un-breached sub-state the claim requires. -/
theorem C3_tsl_state_survives_reopen :
    (update_pnl_pos RiskParams.default
        (update_pnl_pos RiskParams.default (on_fill Pos.init 1 100 Side.BUY) (some 106))
        (some 100)).tsl_breached = true
  ∧ (on_fill (update_pnl_pos RiskParams.default
        (update_pnl_pos RiskParams.default (on_fill Pos.init 1 100 Side.BUY) (some 106))
        (some 100)) 1 100 Side.SELL).net_qty = 0
  ∧ (on_fill (on_fill (update_pnl_pos RiskParams.default
        (update_pnl_pos RiskParams.default (on_fill Pos.init 1 100 Side.BUY) (some 106))
        (some 100)) 1 100 Side.SELL) 1 100 Side.BUY).net_qty = 1
  ∧ (on_fill (on_fill (update_pnl_pos RiskParams.default
        (update_pnl_pos RiskParams.default (on_fill Pos.init 1 100 Side.BUY) (some 106))
        (some 100)) 1 100 Side.SELL) 1 100 Side.BUY).tsl_active = true
  ∧ (on_fill (on_fill (update_pnl_pos RiskParams.default
        (update_pnl_pos RiskParams.default (on_fill Pos.init 1 100 Side.BUY) (some 106))
        (some 100)) 1 100 Side.SELL) 1 100 Side.BUY).tsl_breached = true
  ∧ check_tsl_breach (on_fill (on_fill (update_pnl_pos RiskParams.default
        (update_pnl_pos RiskParams.default (on_fill Pos.init 1 100 Side.BUY) (some 106))
        (some 100)) 1 100 Side.SELL) 1 100 Side.BUY) = true := by
  norm_num [update_pnl_pos, manage_tsl, on_fill, signedQty, Pos.init,
    RiskParams.default, check_tsl_breach]

/-- C10: whenever paper-trading or simulation mode is enabled,
`OrderManager.place_order` applies exactly one immediate fill to the
position before returning the synthetic order identifier, with fill price
`1.0` whenever the supplied price is non-positive; consequently a flat key
filled at a non-positive price opens with average entry price `1.0`. -/
theorem C10_sim_fill_fallback (cfg : TradeModeConfig) (pos : Pos) (q : ℕ) (p : ℚ)
    (s : Side) (h : cfg.paper_trading_mode = true ∨ cfg.simulation_mode = true) :
    place_order cfg pos q p s
        = (on_fill pos q (if p ≤ 0 then 1 else p) s, some (if p ≤ 0 then 1 else p))
      ∧ (p ≤ 0 → pos.net_qty = 0 →
          (place_order cfg pos q p s).1.avg_price = 1
            ∧ (place_order cfg pos q p s).1.net_qty = signedQty s q) := by
  have hmode : place_order cfg pos q p s
      = (on_fill pos q (if p ≤ 0 then 1 else p) s, some (if p ≤ 0 then 1 else p)) := by
    rw [place_order, if_pos h]
  refine ⟨hmode, fun hp hflat => ?_⟩
  rw [hmode]
  simp only [if_pos hp]
  rw [on_fill_flat pos q 1 s hflat]
  exact ⟨rfl, rfl⟩

/-- C10 witness: a paper-mode market order with no price (price `0`) on a
flat key fills at the fallback price `1.0`. -/
theorem C10_sim_fill_fallback_witness :
    (place_order { paper_trading_mode := true, simulation_mode := false }
        Pos.init 1 0 Side.BUY).1.avg_price = 1
      ∧ (place_order { paper_trading_mode := true, simulation_mode := false }
          Pos.init 1 0 Side.BUY).1.net_qty = signedQty Side.BUY 1 := by
  exact (C10_sim_fill_fallback { paper_trading_mode := true, simulation_mode := false }
    Pos.init 1 0 Side.BUY (Or.inl rfl)).2 (by norm_num) rfl

/-- C4: on every processed tick, the VWAP entry advances by
`volume_delta = max(0, current_cum_volume − last_cum_volume)` (natural-number
subtraction): `cum_vol += delta`, `cum_pv += price × delta`; a tick whose
cumulative volume is lower than the baseline contributes nothing and does
not rewind the baseline; and — on every entry satisfying the reachable-state
invariant `VwapInv`, which holds initially and is preserved — the payload
VWAP equals `cum_pv / cum_vol` exactly when the updated `cum_vol` is
positive and the current price otherwise. -/
theorem C4_vwap_tracker (s : VwapState) (p : ℚ) (v : ℕ) (hInv : VwapInv s) :
    (vwapUpdate s p v).cum_vol = s.cum_vol + (v - s.last_vol)
  ∧ (vwapUpdate s p v).cum_pv = s.cum_pv + p * ((v - s.last_vol : ℕ) : ℚ)
  ∧ (v < s.last_vol → vwapUpdate s p v = s)
  ∧ (v ≤ s.last_vol → (vwapUpdate s p v).last_vol = s.last_vol)
  ∧ VwapInv VwapState.init
  ∧ VwapInv (vwapUpdate s p v)
  ∧ payloadVwap (vwapUpdate s p v) p v
      = (if 0 < (vwapUpdate s p v).cum_vol then
          (vwapUpdate s p v).cum_pv / (((vwapUpdate s p v).cum_vol : ℕ) : ℚ)
        else p) := by
  rcases Nat.lt_or_ge s.last_vol v with hlt | hge
  · have hupd : vwapUpdate s p v =
        { cum_vol := s.cum_vol + (v - s.last_vol),
          cum_pv := s.cum_pv + p * ((v : ℚ) - (s.last_vol : ℚ)),
          last_vol := v } := by
      rw [vwapUpdate, if_pos (by omega), if_pos hlt]
    have hcast : ((v - s.last_vol : ℕ) : ℚ) = (v : ℚ) - (s.last_vol : ℚ) := by
      push_cast [Nat.cast_sub hlt.le]
      ring
    refine ⟨by rw [hupd], by rw [hupd, hcast], fun h => absurd h (by omega),
      fun h => absurd hlt (by omega), fun h => rfl, ?_, ?_⟩
    · intro h
      rw [hupd] at h ⊢
      simp only [] at h ⊢
      omega
    · rw [payloadVwap, hupd, if_pos (by omega), if_pos (by simp; omega)]
  · have hupd : vwapUpdate s p v = s := by
      rw [vwapUpdate]
      split_ifs with h1 h2
      · omega
      · rfl
      · rfl
    have hzero : v - s.last_vol = 0 := by omega
    refine ⟨by rw [hupd, hzero]; omega, by rw [hupd, hzero]; push_cast; ring,
      fun _ => hupd, fun _ => by rw [hupd], fun h => rfl, by rw [hupd]; exact hInv, ?_⟩
    rw [payloadVwap, hupd]
    rcases Nat.eq_zero_or_pos v with hv0 | hvpos
    · subst hv0
      simp
    · have hlast : 0 < s.last_vol := by omega
      have hcum : 0 < s.cum_vol := by
        rcases Nat.eq_zero_or_pos s.cum_vol with h0 | h
        · exact absurd (hInv h0) (by omega)
        · exact h
      rw [if_pos (Or.inr hcum), if_pos hcum]

/-- C4 witness: the tracker theorem applied to a fresh entry receiving a
first tick of price 10 and cumulative volume 5, then a corrupt tick whose
cumulative volume rewinds to 2. -/
theorem C4_vwap_tracker_witness :
    (vwapUpdate VwapState.init 10 5).cum_vol = 0 + (5 - 0)
      ∧ (vwapUpdate (vwapUpdate VwapState.init 10 5) 7 2
          = vwapUpdate VwapState.init 10 5) := by
  constructor
  · exact (C4_vwap_tracker VwapState.init 10 5 (fun _ => rfl)).1
  · exact (C4_vwap_tracker (vwapUpdate VwapState.init 10 5) 7 2
      (by norm_num [vwapUpdate, VwapState.init, VwapInv])).2.2.1
      (by norm_num [vwapUpdate, VwapState.init])

/-- Folding `strengthContrib` accumulates exactly the terms of the active
members, in order. -/
lemma foldl_strength (st : WState) :
    ∀ (l : List (String × ℚ)) (acc : ℚ),
      l.foldl (strengthContrib st) acc
        = acc + ((l.filter (memberActive st)).map (memberTerm st)).sum
  | [], acc => by simp
  | sw :: rest, acc => by
      have ih := foldl_strength st rest
      rcases hop : st.open_prices sw.1 with _ | op <;>
        rcases hcp : st.current_prices sw.1 with _ | cp
      · simp [List.foldl_cons, strengthContrib, memberActive, hop, hcp, ih]
      · simp [List.foldl_cons, strengthContrib, memberActive, hop, hcp, ih]
      · simp [List.foldl_cons, strengthContrib, memberActive, hop, hcp, ih]
      · by_cases hz : op = 0
        · simp [List.foldl_cons, strengthContrib, memberActive, hop, hcp, hz, ih]
        · simp only [List.foldl_cons, strengthContrib, hop, hcp, if_neg hz]
          rw [ih]
          simp [memberActive, memberTerm, hop, hcp, hz]
          ring

/-- C6: `calculate_weighted_strength` is the sum, over exactly those basket
members having both an open and a current price recorded and an open price
other than exactly zero, of `weight × (current−open)/open × 100` (all other
members are skipped); in particular it returns `0` whenever every recorded
current price equals the corresponding open price, and it returns `50` on
the two-member example basket A(50, 1000→1010), B(50, 1000→1000).  Being a
plain function of the calculator state, it reads and writes nothing else. -/
theorem C6_weighted_strength :
    (∀ st : WState, calculate_weighted_strength st
        = ((st.weights.filter (memberActive st)).map (memberTerm st)).sum)
  ∧ (∀ st : WState,
        (∀ s op cp, st.open_prices s = some op → st.current_prices s = some cp → cp = op) →
        calculate_weighted_strength st = 0)
  ∧ calculate_weighted_strength wExample = 50 := by
  have hmain : ∀ st : WState, calculate_weighted_strength st
      = ((st.weights.filter (memberActive st)).map (memberTerm st)).sum := by
    intro st
    rw [calculate_weighted_strength, foldl_strength st st.weights 0, zero_add]
  refine ⟨hmain, ?_, ?_⟩
  · intro st heq
    rw [hmain st]
    apply List.sum_eq_zero
    intro x hx
    obtain ⟨sw, hsw, rfl⟩ := List.mem_map.mp hx
    have hactive := List.of_mem_filter hsw
    rw [memberActive] at hactive
    obtain ⟨op, hop⟩ := Option.isSome_iff_exists.mp (by
      rcases h : (st.open_prices sw.1).isSome with _ | _ <;> simp_all)
    obtain ⟨cp, hcp⟩ := Option.isSome_iff_exists.mp (by
      rcases h : (st.current_prices sw.1).isSome with _ | _ <;> simp_all)
    have : cp = op := heq sw.1 op cp hop hcp
    rw [memberTerm, hop, hcp, this]
    simp
  · rw [hmain wExample]
    have hBA : ("B" : String) ≠ "A" := by decide
    norm_num [wExample, memberActive, memberTerm, hBA]

/-- C6 witness: the zero-strength clause applied to the concrete basket in
which every current price equals its open price. -/
theorem C6_weighted_strength_witness :
    calculate_weighted_strength
      { wExample with current_prices := wExample.open_prices } = 0 := by
  refine C6_weighted_strength.2.1 _ ?_
  intro s op cp hop hcp
  simp only [wExample] at hop hcp
  by_cases hA : s = "A" <;> by_cases hB : s = "B" <;> simp_all

/-- C7 (code-bug evidence): the orchestrator's tick path moves the intraday
open-price reference.  Two consecutive same-session ticks for the tracked
constituent `HDFCBANK`, both carrying the day-open field `o` (ltp 100, then
105): `TickEngine.on_tick` calls `update_data(..., is_open=True)` with the
tick's *last price* whenever `o` is present, so the recorded open moves from
100 to 105 intraday, where the claim requires an existing reference never to
be overwritten by later ticks of the session. -/
theorem C7_open_price_overwritten_intraday :
    ((engineOnTick cfgDefault engineExample
        { tk := some "1333", lp := 100, v := 0, has_o := true, ts := 0,
          t_epoch := 1 }).1).weightage.open_prices "HDFCBANK" = some 100
  ∧ ((engineOnTick cfgDefault
        (engineOnTick cfgDefault engineExample
          { tk := some "1333", lp := 100, v := 0, has_o := true, ts := 0,
            t_epoch := 1 }).1
        { tk := some "1333", lp := 105, v := 0, has_o := true, ts := 5,
          t_epoch := 6 }).1).weightage.open_prices "HDFCBANK" = some 105
  ∧ (100 : ℚ) ≠ 105 := by
  have h1 : ("HDFCBANK" : String) ≠ "BANKNIFTY" := by decide
  refine ⟨?_, ?_, by norm_num⟩ <;>
    norm_num [engineOnTick, engineExample, update_data, dictInsert, WState.init,
      vwapUpdate, VwapState.init, payloadVwap, h1, List.lookup]

/-- C9 (amended): every inbound tick whose last price is exactly zero —
including ticks missing the price field, which default to zero — is silently
discarded by `TickEngine.on_tick`: the engine state (VWAP map, resamplers,
weightage, strategy) is returned unchanged and no signal is produced, so no
order or position update can follow; no error is raised (the function is
total). -/
theorem C9_zero_price_discarded (cfg : StratConfig) (st : EngineState)
    (tick : Tick) (h : tick.lp = 0) :
    engineOnTick cfg st tick = (st, none) := by
  rcases htk : tick.tk with _ | token
  · rw [engineOnTick, htk]
  · rcases hmap : st.reverse_token_map token with _ | symbol <;>
      simp only [engineOnTick, htk, hmap] <;> simp [h]

/-- C9 witness: a zero-price tick with a mapped token leaves the concrete
example engine state untouched and yields no signal. -/
theorem C9_zero_price_discarded_witness :
    engineOnTick cfgDefault engineExample
        { tk := some "1333", lp := 0, v := 10, has_o := true, ts := 0,
          t_epoch := 1 }
      = (engineExample, none) :=
  C9_zero_price_discarded cfgDefault engineExample _ rfl

/-- C9 counterexample: a tick with a strictly negative last price is *not*
discarded — only `price == 0` is checked — so it flows into the derived
state: with ltp −5 and cumulative volume 10 the tracked constituent's
current price becomes −5 and the VWAP accumulator absorbs −50 of
price×volume. -/
theorem C9_negative_price_processed :
    ((engineOnTick cfgDefault engineExample
        { tk := some "1333", lp := -5, v := 10, has_o := false, ts := 0,
          t_epoch := 1 }).1).weightage.current_prices "HDFCBANK" = some (-5)
  ∧ engineExample.weightage.current_prices "HDFCBANK" = none
  ∧ ((engineOnTick cfgDefault engineExample
        { tk := some "1333", lp := -5, v := 10, has_o := false, ts := 0,
          t_epoch := 1 }).1).vwap_map "HDFCBANK"
      = some { cum_vol := 10, cum_pv := -50, last_vol := 10 }
  ∧ (-5 : ℚ) ≤ 0 := by
  have h1 : ("HDFCBANK" : String) ≠ "BANKNIFTY" := by decide
  refine ⟨?_, rfl, ?_, by norm_num⟩ <;>
    norm_num [engineOnTick, engineExample, update_data, dictInsert, WState.init,
      vwapUpdate, VwapState.init, payloadVwap, h1, List.lookup]

/-- Exhaustive branch analysis of `Strategy.on_tick`: the score buffer and
price history always advance by the push/evict step; a `none` result leaves
stance and last-signal-time untouched; an emitted signal carries the tick
timestamp, stamps it into `last_signal_time`, switches the stance according
to the signal type (always to a different stance), and can only happen with
the cool-down clear and the confirmation buffer full; from an open `CE`
stance only `EXIT` can be emitted. -/
lemma on_tick_spec (cfg : StratConfig) (wc : WState) (st : StratState)
    (price t vwap : ℚ) (m : MacroTrend) :
    ((Strategy.on_tick cfg wc st price t vwap m).1.score_buffer
        = slideWindow cfg.confirmation_count
            (st.score_buffer ++ [pushedScore cfg wc st price t vwap m]))
    ∧ ((Strategy.on_tick cfg wc st price t vwap m).1.price_history
        = (calculate_momentum st.price_history price t).1)
    ∧ ((Strategy.on_tick cfg wc st price t vwap m).2 = none →
          (Strategy.on_tick cfg wc st price t vwap m).1.position = st.position
          ∧ (Strategy.on_tick cfg wc st price t vwap m).1.last_signal_time
              = st.last_signal_time)
    ∧ (∀ s, (Strategy.on_tick cfg wc st price t vwap m).2 = some s →
          s.timestamp = t
          ∧ (Strategy.on_tick cfg wc st price t vwap m).1.last_signal_time = t
          ∧ (Strategy.on_tick cfg wc st price t vwap m).1.position = stanceAfter s.type
          ∧ stanceAfter s.type ≠ st.position
          ∧ ¬(t - st.last_signal_time < cfg.min_hold_time ∧ 0 < st.last_signal_time)
          ∧ ¬((Strategy.on_tick cfg wc st price t vwap m).1.score_buffer.length
                < cfg.confirmation_count))
    ∧ (st.position = Stance.CE →
        ∀ s, (Strategy.on_tick cfg wc st price t vwap m).2 = some s →
          s.type = SignalType.EXIT) := by
  set momRes := calculate_momentum st.price_history price t with hmom
  set buf := slideWindow cfg.confirmation_count
      (st.score_buffer ++ [pushedScore cfg wc st price t vwap m]) with hbuf
  set res := Strategy.on_tick cfg wc st price t vwap m with hres
  rw [Strategy.on_tick] at hres
  rw [← hbuf] at hres
  rw [show calculate_momentum st.price_history price t = momRes from rfl] at hres
  split_ifs at hres with h1 h2 <;>
    cases hpos : st.position <;>
      simp_all [stanceAfter] <;>
      try (split_ifs <;> simp_all [stanceAfter])

/-- The new momentum history is always the appended-then-evicted list,
whatever the buffer length. -/
lemma calculate_momentum_fst (history : List (ℚ × ℚ)) (p t : ℚ) :
    (calculate_momentum history p t).1
      = (history ++ [(t, p)]).dropWhile (fun e => decide (600 < t - e.1)) := by
  rw [calculate_momentum]
  split_ifs <;> rfl

/-- C8 (amended): outside simulation mode (or with a position open, where
the simulation boost does not apply), the raw score pushed into the
confirmation buffer is exactly the sum of the four factors — trend, macro,
tiered basket strength, tiered ~120-second momentum — and nothing else; the
price history is evicted of entries older than 600 seconds on every update;
and the four factor functions realize exactly the claimed tier tables.  In
simulation mode with no open position, scores beyond ±0.5 are boosted by
±1.5 before the push. -/
theorem C8_pushed_score (cfg : StratConfig) (wc : WState) (st : StratState)
    (price t vwap : ℚ) (m : MacroTrend)
    (h : cfg.simulation_mode = false ∨ st.position ≠ Stance.flat) :
    ((Strategy.on_tick cfg wc st price t vwap m).1.score_buffer
        = slideWindow cfg.confirmation_count
            (st.score_buffer ++ [rawFactorScore wc st price t vwap m]))
  ∧ ((Strategy.on_tick cfg wc st price t vwap m).1.price_history
        = (st.price_history ++ [(t, price)]).dropWhile (fun e => decide (600 < t - e.1)))
  ∧ (∀ x : ℚ, (20 < x → factorStrength x = 3/2)
        ∧ (10 < x → x ≤ 20 → factorStrength x = 1/2)
        ∧ (x < -20 → factorStrength x = -(3/2))
        ∧ (-20 ≤ x → x < -10 → factorStrength x = -(1/2))
        ∧ (-10 ≤ x → x ≤ 10 → factorStrength x = 0))
  ∧ (∀ c : ℚ, (60 ≤ c → momentumTier c = 3/2)
        ∧ (30 ≤ c → c < 60 → momentumTier c = 1/2)
        ∧ (c ≤ -60 → momentumTier c = -(3/2))
        ∧ (-60 < c → c ≤ -30 → momentumTier c = -(1/2))
        ∧ (-30 < c → c < 30 → momentumTier c = 0))
  ∧ (∀ q v : ℚ, 0 < v → (v < q → factorTrend q v = 1)
        ∧ (q < v → factorTrend q v = -1) ∧ (q = v → factorTrend q v = 0))
  ∧ factorMacro MacroTrend.BULLISH = 1 ∧ factorMacro MacroTrend.BEARISH = -1
  ∧ factorMacro MacroTrend.NEUTRAL = 0 := by
  have hps : pushedScore cfg wc st price t vwap m
      = rawFactorScore wc st price t vwap m := by
    rw [pushedScore, if_neg]
    rintro ⟨ha, hb⟩
    rcases h with h | h
    · rw [h] at ha
      exact Bool.false_ne_true ha
    · exact h hb
  refine ⟨?_, ?_, ?_, ?_, ?_, rfl, rfl, rfl⟩
  · rw [(on_tick_spec cfg wc st price t vwap m).1, hps]
  · rw [(on_tick_spec cfg wc st price t vwap m).2.1, calculate_momentum_fst]
  · intro x
    refine ⟨?_, ?_, ?_, ?_, ?_⟩ <;> intros <;> rw [factorStrength] <;> split_ifs <;>
      first | rfl | linarith
  · intro c
    refine ⟨?_, ?_, ?_, ?_, ?_⟩ <;> intros <;> rw [momentumTier] <;> split_ifs <;>
      first | rfl | linarith
  · intro q v hv
    refine ⟨?_, ?_, ?_⟩ <;> intro hh <;> rw [factorTrend] <;> split_ifs <;>
      first | rfl | linarith

/-- C8 counterexample: with `SIMULATION_MODE` enabled and no open position,
the score pushed into the confirmation buffer is *not* the four-factor sum.
At price 2 against VWAP 1 with neutral macro, empty basket and no momentum
history, the four factors sum to 1, but the pushed score is the boosted
2.5. -/
theorem C8_sim_boost_counterexample :
    (Strategy.on_tick cfgSim (WState.init []) StratState.init 2 1 1
        MacroTrend.NEUTRAL).1.score_buffer = [5/2]
  ∧ rawFactorScore (WState.init []) StratState.init 2 1 1 MacroTrend.NEUTRAL = 1
  ∧ (5/2 : ℚ) ≠ 1 := by
  refine ⟨?_, ?_, by norm_num⟩ <;>
    norm_num [Strategy.on_tick, pushedScore, rawFactorScore, simBoost, slideWindow,
      calculate_momentum, momentumTier, factorTrend, factorMacro, factorStrength,
      calculate_weighted_strength, strengthContrib, WState.init, StratState.init,
      cfgSim, cfgDefault]

/-- C8 witness: the amended theorem applied with the default (non-simulation)
configuration at a concrete tick. -/
theorem C8_pushed_score_witness :
    (Strategy.on_tick cfgDefault (WState.init []) StratState.init 2 1 1
        MacroTrend.NEUTRAL).1.score_buffer
      = slideWindow cfgDefault.confirmation_count
          (StratState.init.score_buffer
            ++ [rawFactorScore (WState.init []) StratState.init 2 1 1
                  MacroTrend.NEUTRAL]) :=
  (C8_pushed_score cfgDefault (WState.init []) StratState.init 2 1 1
    MacroTrend.NEUTRAL (Or.inl rfl)).1

/-- Cool-down invariant along a run of the signal engine: when every tick
timestamp is positive, the emitted signal timestamps — prefixed by the
initial `last_signal_time` when it is positive — form a chain whose
consecutive gaps are at least `min_hold_time`, and every emitted timestamp
is positive. -/
lemma stratRun_cooldown (cfg : StratConfig) :
    ∀ (ticks : List StratTick) (st : StratState),
      (∀ tk ∈ ticks, 0 < tk.t) →
      List.Chain' (fun a b => cfg.min_hold_time ≤ b - a)
        ((if 0 < st.last_signal_time then [st.last_signal_time] else [])
          ++ ((stratRun cfg st ticks).2.map Signal.timestamp))
      ∧ (∀ s ∈ (stratRun cfg st ticks).2, 0 < s.timestamp)
  | [], st, _ => by
      refine ⟨?_, by simp [stratRun]⟩
      split_ifs <;> simp [stratRun]
  | tk :: rest, st, hts => by
      have htk : 0 < tk.t := hts tk (by simp)
      have hrest : ∀ x ∈ rest, 0 < x.t := fun x hx => hts x (by simp [hx])
      have hspec := on_tick_spec cfg tk.wc st tk.price tk.t tk.vwap tk.trend
      have ih := stratRun_cooldown cfg rest
        (Strategy.on_tick cfg tk.wc st tk.price tk.t tk.vwap tk.trend).1 hrest
      have hrun : stratRun cfg st (tk :: rest)
          = ((stratRun cfg
                (Strategy.on_tick cfg tk.wc st tk.price tk.t tk.vwap tk.trend).1 rest).1,
             (Strategy.on_tick cfg tk.wc st tk.price tk.t tk.vwap tk.trend).2.toList
               ++ (stratRun cfg
                    (Strategy.on_tick cfg tk.wc st tk.price tk.t tk.vwap tk.trend).1
                    rest).2) := rfl
      rcases hsig : (Strategy.on_tick cfg tk.wc st tk.price tk.t tk.vwap tk.trend).2
        with _ | s
      · have hlast :=
          ((hspec.2.2.1) hsig).2
        rw [hrun, hsig]
        simp only [Option.toList_none, List.nil_append]
        rw [← hlast]
        exact ih
      · obtain ⟨hts', hlast', _, _, hguard, _⟩ := hspec.2.2.2.1 s hsig
        rw [hrun, hsig]
        simp only [Option.toList_some, List.singleton_append, List.map_cons]
        have hchain := ih.1
        rw [hlast'] at hchain
        rw [if_pos htk] at hchain
        simp only [List.singleton_append] at hchain
        constructor
        · by_cases hpos : 0 < st.last_signal_time
          · rw [if_pos hpos]
            simp only [List.singleton_append]
            rw [List.chain'_cons]
            refine ⟨?_, by rw [hts']; exact hchain⟩
            rw [hts']
            by_contra hlt
            exact hguard ⟨by linarith [not_le.mp hlt], hpos⟩
          · rw [if_neg hpos]
            simp only [List.nil_append]
            rw [hts']
            exact hchain
        · intro x hx
          simp only [List.mem_cons] at hx
          rcases hx with rfl | hx
          · rw [hts']
            exact htk
          · exact ih.2 x hx

/-- C2: behavior of the signal engine.  (i) No signal is returned while the
confirmation buffer holds fewer than `confirmation_count` scores.  (ii) From
a fresh engine, over any tick sequence with positive timestamps, consecutive
emitted signals are at least `min_hold_time` apart (the first signal,
unconstrained, starts the chain).  (iii) A `none` result leaves the stance
and `last_signal_time` untouched, while an emitted signal always stamps
`last_signal_time` with the tick time, carries that timestamp, and moves the
stance to the state matching its type — always a different stance, so the
machine never double-enters.  (iv) From an open `CE` stance the only
emittable signal is `EXIT`. -/
theorem C2_signal_engine (cfg : StratConfig) :
    (∀ (wc : WState) (st : StratState) (price t vwap : ℚ) (m : MacroTrend),
        (Strategy.on_tick cfg wc st price t vwap m).1.score_buffer.length
            < cfg.confirmation_count →
        (Strategy.on_tick cfg wc st price t vwap m).2 = none)
  ∧ (∀ ticks : List StratTick, (∀ tk ∈ ticks, 0 < tk.t) →
        List.Chain' (fun a b => cfg.min_hold_time ≤ b.timestamp - a.timestamp)
          (stratRun cfg StratState.init ticks).2)
  ∧ (∀ (wc : WState) (st : StratState) (price t vwap : ℚ) (m : MacroTrend),
        ((Strategy.on_tick cfg wc st price t vwap m).2 = none →
            (Strategy.on_tick cfg wc st price t vwap m).1.position = st.position
            ∧ (Strategy.on_tick cfg wc st price t vwap m).1.last_signal_time
                = st.last_signal_time)
        ∧ (∀ s, (Strategy.on_tick cfg wc st price t vwap m).2 = some s →
            (Strategy.on_tick cfg wc st price t vwap m).1.last_signal_time = t
            ∧ s.timestamp = t
            ∧ (Strategy.on_tick cfg wc st price t vwap m).1.position
                = stanceAfter s.type
            ∧ stanceAfter s.type ≠ st.position))
  ∧ (∀ (wc : WState) (st : StratState) (price t vwap : ℚ) (m : MacroTrend),
        st.position = Stance.CE →
        ∀ s, (Strategy.on_tick cfg wc st price t vwap m).2 = some s →
          s.type = SignalType.EXIT) := by
  refine ⟨?_, ?_, ?_, ?_⟩
  · intro wc st price t vwap m hlen
    rcases hsig : (Strategy.on_tick cfg wc st price t vwap m).2 with _ | s
    · rfl
    · exact absurd hlen
        ((on_tick_spec cfg wc st price t vwap m).2.2.2.1 s hsig).2.2.2.2.2
  · intro ticks hts
    have h := (stratRun_cooldown cfg ticks StratState.init hts).1
    have hzero : ¬ (0 : ℚ) < StratState.init.last_signal_time := by
      rw [StratState.init]
      norm_num
    rw [if_neg hzero, List.nil_append] at h
    exact (List.chain'_map Signal.timestamp).mp h
  · intro wc st price t vwap m
    refine ⟨(on_tick_spec cfg wc st price t vwap m).2.2.1, ?_⟩
    intro s hs
    obtain ⟨h1, h2, h3, h4, _, _⟩ := (on_tick_spec cfg wc st price t vwap m).2.2.2.1 s hs
    exact ⟨h2, h1, h3, h4⟩
  · intro wc st price t vwap m hpos s hs
    exact (on_tick_spec cfg wc st price t vwap m).2.2.2.2 hpos s hs

/-- C2 witness: the signal-engine theorem applied to the default
configuration — a first tick cannot emit (its buffer holds one of five
required scores) and the one-tick run satisfies the cool-down chain. -/
theorem C2_signal_engine_witness :
    (Strategy.on_tick cfgDefault (WState.init []) StratState.init 2 1 1
        MacroTrend.NEUTRAL).2 = none
  ∧ List.Chain' (fun a b => cfgDefault.min_hold_time ≤ b.timestamp - a.timestamp)
      (stratRun cfgDefault StratState.init
        [{ wc := WState.init [], price := 2, t := 1, vwap := 1,
           trend := MacroTrend.NEUTRAL }]).2 := by
  constructor
  · apply (C2_signal_engine cfgDefault).1
    rw [(on_tick_spec cfgDefault (WState.init []) StratState.init 2 1 1
        MacroTrend.NEUTRAL).1]
    norm_num [slideWindow, StratState.init, cfgDefault]
  · apply (C2_signal_engine cfgDefault).2.1
    intro tk hk
    simp only [List.mem_singleton] at hk
    subst hk
    norm_num

/-- Bucket starts are monotone in the timestamp, for any interval. -/
lemma bucketStart_mono (i : ℕ) {a b : ℕ} (h : a ≤ b) :
    bucketStart i a ≤ bucketStart i b := by
  rw [bucketStart, bucketStart]
  have hd : a / 3600 ≤ b / 3600 := Nat.div_le_div_right h
  have hma : a % 3600 / 60 / i * i ≤ a % 3600 / 60 := Nat.div_mul_le_self _ _
  have hmb : b % 3600 / 60 / i * i ≤ b % 3600 / 60 := Nat.div_mul_le_self _ _
  rcases Nat.lt_or_ge (a / 3600) (b / 3600) with hh | hh
  · set ma := a % 3600 / 60 / i * i
    set mb := b % 3600 / 60 / i * i
    omega
  · have hm : a % 3600 / 60 ≤ b % 3600 / 60 := by omega
    have hdiv : a % 3600 / 60 / i ≤ b % 3600 / 60 / i := Nat.div_le_div_right hm
    have hmul : a % 3600 / 60 / i * i ≤ b % 3600 / 60 / i * i :=
      Nat.mul_le_mul_right i hdiv
    set ma := a % 3600 / 60 / i * i
    set mb := b % 3600 / 60 / i * i
    omega

/-- Seeding branch of `process_tick`. -/
lemma process_tick_none (i : ℕ) (hist : List Candle) (p : ℚ) (v ts : ℕ) :
    process_tick ⟨i, none, hist⟩ p v ts
      = (⟨i, some ⟨bucketStart i ts, p, p, p, p, v, false⟩, hist⟩, none) := rfl

/-- In-place update branch of `process_tick`. -/
lemma process_tick_update (i : ℕ) (hist : List Candle) (p : ℚ) (v ts : ℕ)
    (c : Candle) (h : ¬ c.timestamp < bucketStart i ts) :
    process_tick ⟨i, some c, hist⟩ p v ts
      = (⟨i, some ({ c with high := max c.high p, low := min c.low p, close := p, volume := c.volume + v }), hist⟩, none) := by
  rw [process_tick]
  simp [h]

/-- Completion branch of `process_tick`. -/
lemma process_tick_complete (i : ℕ) (hist : List Candle) (p : ℚ) (v ts : ℕ)
    (c : Candle) (h : c.timestamp < bucketStart i ts) :
    process_tick ⟨i, some c, hist⟩ p v ts
      = (⟨i, some ⟨bucketStart i ts, p, p, p, p, v, false⟩,
           hist ++ [{ c with complete := true }]⟩,
         some { c with complete := true }) := by
  rw [process_tick]
  simp [h]

/-- Unfolding of `runResampler` on a cons cell. -/
lemma runResampler_cons (st : ResamplerState) (tk : RTick) (rest : List RTick) :
    runResampler st (tk :: rest)
      = ((runResampler (process_tick st tk.price tk.volume tk.ts).1 rest).1,
         (process_tick st tk.price tk.volume tk.ts).2.toList
           ++ (runResampler (process_tick st tk.price tk.volume tk.ts).1 rest).2) := rfl

/-- Price-bound invariant for a resampler run over chronologically ordered
ticks.  For every candle the run completes: (1) its low/high bound every
tick of the run that falls in its bucket; (2) if it shares the bucket of the
inherited current candle it extends that candle's low/high; (3) its bucket
is no earlier than the inherited current candle's. -/
lemma runResampler_bounds (i : ℕ) :
    ∀ (ticks : List RTick) (cur : Option Candle) (hist : List Candle),
      List.Pairwise (fun a b => a.ts ≤ b.ts) ticks →
      (∀ c0, cur = some c0 → ∀ tk ∈ ticks, c0.timestamp ≤ bucketStart i tk.ts) →
      ∀ c ∈ (runResampler ⟨i, cur, hist⟩ ticks).2,
        (∀ tk ∈ ticks, bucketStart i tk.ts = c.timestamp →
            c.low ≤ tk.price ∧ tk.price ≤ c.high)
        ∧ (∀ c0, cur = some c0 → c.timestamp = c0.timestamp →
            c.low ≤ c0.low ∧ c0.high ≤ c.high)
        ∧ (∀ c0, cur = some c0 → c0.timestamp ≤ c.timestamp)
  | [], cur, hist, _, _ => by simp [runResampler]
  | tk :: rest, cur, hist, hpair, hcur => by
      obtain ⟨hfirst, hrest⟩ := List.pairwise_cons.mp hpair
      have hmono : ∀ tk' ∈ rest, bucketStart i tk.ts ≤ bucketStart i tk'.ts :=
        fun tk' h' => bucketStart_mono i (hfirst tk' h')
      rcases cur with _ | c0
      · -- no current candle: seed from this tick
        rw [runResampler_cons, process_tick_none]
        simp only [Option.toList_none, List.nil_append]
        intro c hc
        have hcur' : ∀ d, (some (⟨bucketStart i tk.ts, tk.price, tk.price, tk.price,
              tk.price, tk.volume, false⟩ : Candle)) = some d →
            ∀ tk' ∈ rest, d.timestamp ≤ bucketStart i tk'.ts := by
          rintro d hd tk' h'
          obtain rfl := Option.some.inj hd
          exact hmono tk' h'
        have ih := runResampler_bounds i rest
          (some ⟨bucketStart i tk.ts, tk.price, tk.price, tk.price, tk.price,
            tk.volume, false⟩) hist hrest hcur' c hc
        refine ⟨?_, fun d hd => Option.noConfusion hd,
          fun d hd => Option.noConfusion hd⟩
        intro tk' htk' heq
        rcases List.mem_cons.mp htk' with rfl | h'
        · have hext := ih.2.1 _ rfl heq.symm
          exact ⟨le_trans hext.1 le_rfl, le_trans le_rfl hext.2⟩
        · exact ih.1 tk' h' heq
      · have hle : c0.timestamp ≤ bucketStart i tk.ts :=
          hcur c0 rfl tk (List.mem_cons_self tk rest)
        by_cases hbr : c0.timestamp < bucketStart i tk.ts
        · -- bucket crossed: complete c0, seed a fresh candle
          rw [runResampler_cons, process_tick_complete i hist tk.price tk.volume tk.ts c0 hbr]
          simp only [Option.toList_some, List.singleton_append]
          intro c hc
          have hcur' : ∀ d, (some (⟨bucketStart i tk.ts, tk.price, tk.price, tk.price,
                tk.price, tk.volume, false⟩ : Candle)) = some d →
              ∀ tk' ∈ rest, d.timestamp ≤ bucketStart i tk'.ts := by
            rintro d hd tk' h'
            obtain rfl := Option.some.inj hd
            exact hmono tk' h'
          rcases List.mem_cons.mp hc with rfl | hc'
          · have hcts : ({ c0 with complete := true } : Candle).timestamp
                = c0.timestamp := rfl
            refine ⟨?_, ?_, ?_⟩
            · intro tk' htk' heq
              rw [hcts] at heq
              rcases List.mem_cons.mp htk' with rfl | h'
              · exact absurd heq (by omega)
              · have hmm := hmono tk' h'
                exact absurd heq (by omega)
            · rintro d hd heq2
              obtain rfl := Option.some.inj hd
              exact ⟨le_rfl, le_rfl⟩
            · rintro d hd
              obtain rfl := Option.some.inj hd
              rw [hcts]
          · have ih := runResampler_bounds i rest
              (some ⟨bucketStart i tk.ts, tk.price, tk.price, tk.price, tk.price,
                tk.volume, false⟩) (hist ++ [{ c0 with complete := true }])
              hrest hcur' c hc'
            refine ⟨?_, ?_, ?_⟩
            · intro tk' htk' heq
              rcases List.mem_cons.mp htk' with rfl | h'
              · have hext := ih.2.1 _ rfl heq.symm
                exact ⟨hext.1, hext.2⟩
              · exact ih.1 tk' h' heq
            · rintro d hd heq2
              obtain rfl := Option.some.inj hd
              have h3 := ih.2.2 _ rfl
              exact absurd heq2 (by
                have : (⟨bucketStart i tk.ts, tk.price, tk.price, tk.price, tk.price,
                    tk.volume, false⟩ : Candle).timestamp = bucketStart i tk.ts := rfl
                omega)
            · rintro d hd
              obtain rfl := Option.some.inj hd
              have h3 := ih.2.2 _ rfl
              have : (⟨bucketStart i tk.ts, tk.price, tk.price, tk.price, tk.price,
                  tk.volume, false⟩ : Candle).timestamp = bucketStart i tk.ts := rfl
              omega
        · -- same bucket: in-place update
          have heq0 : bucketStart i tk.ts = c0.timestamp := by omega
          rw [runResampler_cons, process_tick_update i hist tk.price tk.volume tk.ts c0 hbr]
          simp only [Option.toList_none, List.nil_append]
          intro c hc
          have hcur' : ∀ d, (some ({ c0 with high := max c0.high tk.price, low := min c0.low tk.price, close := tk.price, volume := c0.volume + tk.volume } : Candle)) = some d → ∀ tk' ∈ rest, d.timestamp ≤ bucketStart i tk'.ts := by
            rintro d hd tk' h'
            obtain rfl := Option.some.inj hd
            have hmm := hmono tk' h'
            show c0.timestamp ≤ _
            omega
          have ih := runResampler_bounds i rest
            (some ({ c0 with high := max c0.high tk.price, low := min c0.low tk.price, close := tk.price, volume := c0.volume + tk.volume })) hist hrest hcur' c hc
          refine ⟨?_, ?_, ?_⟩
          · intro tk' htk' heq
            rcases List.mem_cons.mp htk' with rfl | h'
            · have hext := ih.2.1 _ rfl (by rw [← heq, heq0])
              refine ⟨le_trans hext.1 ?_, le_trans ?_ hext.2⟩
              · exact min_le_right _ _
              · exact le_max_right _ _
            · exact ih.1 tk' h' heq
          · rintro d hd heq2
            obtain rfl := Option.some.inj hd
            have hext := ih.2.1 _ rfl heq2
            refine ⟨le_trans hext.1 (min_le_left _ _), le_trans (le_max_left _ _) hext.2⟩
          · rintro d hd
            obtain rfl := Option.some.inj hd
            exact ih.2.2 ({ c0 with high := max c0.high tk.price, low := min c0.low tk.price, close := tk.price, volume := c0.volume + tk.volume }) rfl

/-- C5: behavior of `CandleResampler.process_tick`.  (i) A completed bar is
returned exactly when a current bar exists and the tick's bucket start is
strictly later than its bucket start (at most one per call, by the return
type).  (ii) The returned bar is the current bar frozen with
`complete = true` and is appended to history exactly once.  (iii) When
nothing is returned the history is untouched.  (iv) A tick inside the
current bucket updates the bar in place — `high = max`, `low = min`,
`close = price`, `volume += delta` — and returns nothing.  (v) Over any
chronologically ordered tick sequence from a fresh resampler, every
returned bar's low and high bound every tick price that falls within its
bucket. -/
theorem C5_resampler :
    (∀ (st : ResamplerState) (p : ℚ) (v ts : ℕ),
        ((process_tick st p v ts).2).isSome = true ↔
          ∃ c, st.current_candle = some c ∧ c.timestamp < bucketStart st.interval ts)
  ∧ (∀ (st : ResamplerState) (p : ℚ) (v ts : ℕ) (c : Candle),
        (process_tick st p v ts).2 = some c →
          c.complete = true
          ∧ (process_tick st p v ts).1.candles = st.candles ++ [c]
          ∧ ∃ c0, st.current_candle = some c0 ∧ c = { c0 with complete := true })
  ∧ (∀ (st : ResamplerState) (p : ℚ) (v ts : ℕ),
        (process_tick st p v ts).2 = none →
          (process_tick st p v ts).1.candles = st.candles)
  ∧ (∀ (st : ResamplerState) (c : Candle) (p : ℚ) (v ts : ℕ),
        st.current_candle = some c → bucketStart st.interval ts ≤ c.timestamp →
          process_tick st p v ts
            = ({ st with current_candle := some ({ c with high := max c.high p, low := min c.low p, close := p, volume := c.volume + v }) }, none))
  ∧ (∀ (i : ℕ) (ticks : List RTick),
        List.Pairwise (fun a b => a.ts ≤ b.ts) ticks →
        ∀ c ∈ (runResampler (ResamplerState.init i) ticks).2,
          ∀ tk ∈ ticks, bucketStart i tk.ts = c.timestamp →
            c.low ≤ tk.price ∧ tk.price ≤ c.high) := by
  refine ⟨?_, ?_, ?_, ?_, ?_⟩
  · rintro ⟨i, cur, hist⟩ p v ts
    rcases cur with _ | c
    · rw [process_tick_none]
      simp
    · by_cases hbr : c.timestamp < bucketStart i ts
      · rw [process_tick_complete i hist p v ts c hbr]
        simpa using hbr
      · rw [process_tick_update i hist p v ts c hbr]
        simpa using hbr
  · rintro ⟨i, cur, hist⟩ p v ts c h
    rcases cur with _ | c0
    · rw [process_tick_none] at h
      exact Option.noConfusion h
    · by_cases hbr : c0.timestamp < bucketStart i ts
      · rw [process_tick_complete i hist p v ts c0 hbr] at h
        obtain rfl := Option.some.inj h
        refine ⟨rfl, ?_, c0, rfl, rfl⟩
        rw [process_tick_complete i hist p v ts c0 hbr]
      · rw [process_tick_update i hist p v ts c0 hbr] at h
        exact Option.noConfusion h
  · rintro ⟨i, cur, hist⟩ p v ts h
    rcases cur with _ | c0
    · rw [process_tick_none]
    · by_cases hbr : c0.timestamp < bucketStart i ts
      · rw [process_tick_complete i hist p v ts c0 hbr] at h
        exact Option.noConfusion h
      · rw [process_tick_update i hist p v ts c0 hbr]
  · rintro ⟨i, cur, hist⟩ c p v ts hcur hle
    obtain rfl : cur = some c := hcur
    exact process_tick_update i hist p v ts c (not_lt.mpr hle)
  · intro i ticks hp c hc tk htk heq
    exact (runResampler_bounds i ticks none [] hp
      (fun c0 hd => Option.noConfusion hd) c hc).1 tk htk heq

/-- C5 witness: an in-bucket tick updates the current 3-minute bar in place,
and the chronological two-tick run crossing a bucket boundary satisfies the
bound property. -/
theorem C5_resampler_witness :
    process_tick ⟨3, some ⟨0, 10, 10, 10, 10, 1, false⟩, []⟩ 20 2 60
        = (⟨3, some ⟨0, 10, max 10 20, min 10 20, 20, 1 + 2, false⟩, []⟩, none)
  ∧ (∀ c ∈ (runResampler (ResamplerState.init 3)
        [⟨10, 1, 0⟩, ⟨20, 1, 300⟩]).2,
      ∀ tk ∈ ([⟨10, 1, 0⟩, ⟨20, 1, 300⟩] : List RTick),
        bucketStart 3 tk.ts = c.timestamp →
          c.low ≤ tk.price ∧ tk.price ≤ c.high) := by
  constructor
  · exact C5_resampler.2.2.2.1 ⟨3, some ⟨0, 10, 10, 10, 10, 1, false⟩, []⟩
      ⟨0, 10, 10, 10, 10, 1, false⟩ 20 2 60 rfl (by decide)
  · exact C5_resampler.2.2.2.2 3 [⟨10, 1, 0⟩, ⟨20, 1, 300⟩]
      (by norm_num [List.pairwise_cons])

end OptionsQuant
